import Mathlib

/-!
Verification of the ecom Express backend core: a shallow embedding of the
authentication / authorization middleware (src/middlewares/auth.js), the
refresh-token and user Sequelize models (src/models), and the response-cache
middleware (src/middlewares/cache.js), together with theorems settling the
specified properties.

Conventions of the embedding:
- JavaScript timestamps (Date.now(), Date values) are integers (milliseconds).
- JavaScript strings are Lean String; string primitives that must reduce in
  the kernel (startsWith, substring, includes, numeric coercion) are defined
  over the underlying character list.
- A JS Map / plain object is an association list with unique keys; Map.set
  replaces the binding for the given key, Map.delete removes it.
- Fallible or branching request handling is an explicit outcome value
  (continue the pipeline, or respond with an HTTP status and message).
-/

namespace Ecom

/-! ## JavaScript values and truthiness -/

/-- JSON-like payload values. Composite payloads (objects, arrays) are carried
opaquely by their serialized form: the middleware under verification never
inspects a payload's internal structure, only stores it, compares it, and
tests JavaScript truthiness (every object/array is truthy). -/
inductive JValue where
  | jnull : JValue
  | jbool : Bool → JValue
  | jnum : Int → JValue
  | jstr : String → JValue
  | jobj : String → JValue
deriving Repr, DecidableEq

/-- JavaScript truthiness of a value: null, false, 0 and the empty string are
falsy; every object is truthy. -/
def truthy : JValue → Bool
  | .jnull => false
  | .jbool b => b
  | .jnum n => n != 0
  | .jstr s => s != ("")
  | .jobj _ => true

/-! ## String primitives (kernel-reducible) -/

/-- Does the second character list start with the first? -/
def charsStart : List Char → List Char → Bool
  | [], _ => true
  | _ :: _, [] => false
  | a :: as, b :: bs => a == b && charsStart as bs

/-- Does the character list contain the pattern as a contiguous run?
Implements JavaScript String.prototype.includes on character lists. -/
def charsIncl (pat : List Char) : List Char → Bool
  | [] => pat.isEmpty
  | c :: rest => charsStart pat (c :: rest) || charsIncl pat rest

/-- JavaScript s.startsWith(pre). -/
def strStartsWith (s pre : String) : Bool := charsStart pre.data s.data

/-- JavaScript s.substring(n) for ASCII strings: drop the first n characters. -/
def strDrop (s : String) (n : Nat) : String := ⟨s.data.drop n⟩

/-- JavaScript s.includes(pat): substring containment. -/
def strIncl (s pat : String) : Bool := charsIncl pat.data s.data

/-- Decimal value of an ASCII digit character, none otherwise. -/
def digitVal (c : Char) : Option Nat :=
  if c.toNat ≥ 48 && c.toNat ≤ 57 then some (c.toNat - 48) else none

/-- Parse a nonempty all-digit character list as a decimal natural number;
none (NaN) otherwise. -/
def digitsToNat : List Char → Option Nat
  | [] => none
  | cs => cs.foldl (fun acc c => match acc, digitVal c with
      | some n, some d => some (n * 10 + d)
      | _, _ => none) (some 0)

/-- JavaScript loose equality `s == n` between a string and a number, for the
case used by the code: a route-parameter string compared against a numeric
database id. JS coerces the string with Number(); ids are positive decimal
integers, so the comparison succeeds exactly when the string is the decimal
numeral of the id. Strings that do not parse coerce to NaN and compare false. -/
def jsLooseEqStrNat (s : String) (n : Nat) : Bool :=
  digitsToNat s.data == some n

/-! ## Constants (src/config/constants.js) -/

namespace USER_ROLES

def ADMIN : String := "admin"

def USER : String := "user"

def MODERATOR : String := "moderator"

end USER_ROLES

namespace USER_STATUS

def ACTIVE : String := "active"

def INACTIVE : String := "inactive"

def SUSPENDED : String := "suspended"

def PENDING : String := "pending"

end USER_STATUS

/-! ## User.prototype.toJSON (src/models/User.js)

A model instance's attribute set (`this.get()`) is an association list from
attribute names to values. `toJSON` copies it and deletes the five sensitive
keys. -/

/-- Attribute lookup on a JS object: value of the first binding of the key. -/
def jsGet (o : List (String × JValue)) (k : String) : Option JValue :=
  (o.find? (fun p => p.1 == k)).map (fun p => p.2)

/-- JavaScript `delete o[k]`: remove the binding of key k. -/
def jsDeleteKey (o : List (String × JValue)) (k : String) : List (String × JValue) :=
  o.filter (fun p => p.1 != k)

/-- The keys deleted by User.prototype.toJSON, in source order. -/
def sensitiveFields : List String :=
  [("password"), ("resetPasswordToken"), ("resetPasswordExpires"),
   ("emailVerificationToken"), ("twoFactorSecret")]

/-- User.prototype.toJSON: copy the attributes and delete the sensitive keys. -/
def userToJSON (values : List (String × JValue)) : List (String × JValue) :=
  sensitiveFields.foldl jsDeleteKey values

/-! ## RefreshToken model (src/models/RefreshToken.js) -/

/-- A row of the refresh_tokens table (the columns the verified methods use). -/
structure RefreshTokenRec where
  token : String
  userId : Nat
  expiresAt : Int
  isRevoked : Bool
deriving Repr, DecidableEq

/-- RefreshToken.prototype.isExpired: `new Date() > this.expiresAt`. -/
def RefreshTokenRec.isExpired (r : RefreshTokenRec) (now : Int) : Bool :=
  now > r.expiresAt

/-- RefreshToken.prototype.isValid: `!this.isRevoked && !this.isExpired()`. -/
def RefreshTokenRec.isValid (r : RefreshTokenRec) (now : Int) : Bool :=
  !r.isRevoked && !(r.isExpired now)

/-- RefreshToken.findValidToken: findOne with
`where: token, isRevoked: false, expiresAt > new Date()`. The table is an
explicit list of rows; findOne returns the first matching row. -/
def findValidToken (db : List RefreshTokenRec) (tok : String) (now : Int) :
    Option RefreshTokenRec :=
  db.find? (fun r => r.token == tok && r.isRevoked == false && decide (r.expiresAt > now))

/-! ## Authentication middleware (src/middlewares/auth.js) -/

/-- The user attributes consulted by the middleware. -/
structure UserRec where
  id : Nat
  role : String
  status : String
deriving Repr, DecidableEq

/-- Result of jwt.verify: the decoded payload's id claim, or the thrown
error's kind (TokenExpiredError, JsonWebTokenError, anything else). -/
inductive JwtFailure where
  | expired : JwtFailure
  | invalid : JwtFailure
  | other : JwtFailure
deriving Repr, DecidableEq

/-- The 401 message the catch block of `authenticate` produces for each
jwt.verify error kind. -/
def jwtErrorMessage : JwtFailure → String
  | .expired => ("Token expired")
  | .invalid => ("Invalid token")
  | .other => ("Authentication failed")

/-- Outcome of the authenticate middleware: either `req.user` is attached and
`next()` is called, or the request is answered with a status and message. -/
inductive AuthOutcome where
  | proceed : UserRec → AuthOutcome
  | reject : Nat → String → AuthOutcome
deriving Repr, DecidableEq

/-- The authenticate middleware. `verify` abstracts jwt.verify with the
configured secret; `db` is the users table (User.findByPk is lookup by id);
`authHeader` is req.headers.authorization. -/
def authenticate (verify : String → Except JwtFailure Nat) (db : List UserRec)
    (authHeader : Option String) : AuthOutcome :=
  match authHeader with
  | none => .reject 401 ("No token provided")
  | some h =>
    if strStartsWith h ("Bearer ") then
      match verify (strDrop h 7) with
      | .error e => .reject 401 (jwtErrorMessage e)
      | .ok decodedId =>
        match db.find? (fun u => u.id == decodedId) with
        | none => .reject 401 ("Invalid token - user not found")
        | some user =>
          if user.status == USER_STATUS.ACTIVE then .proceed user
          else .reject 401 ("Account is not active")
    else .reject 401 ("No token provided")

/-! ## Authorization middleware (src/middlewares/auth.js) -/

/-- Outcome of a non-attaching middleware: call `next()` or respond. -/
inductive MwOutcome where
  | next : MwOutcome
  | reject : Nat → String → MwOutcome
deriving Repr, DecidableEq

/-- The authorize(...roles) middleware, applied to a request whose `req.user`
is the given optional principal. -/
def authorize (roles : List String) (user : Option UserRec) : MwOutcome :=
  match user with
  | none => .reject 401 ("Authentication required")
  | some u =>
    if roles.contains u.role then .next
    else .reject 403 ("Insufficient permissions")

/-- Route-parameter lookup (req.params), an association list of strings. -/
def paramsGet (ps : List (String × String)) (k : String) : Option String :=
  (ps.find? (fun p => p.1 == k)).map (fun p => p.2)

/-- The ownerOrAdmin(resourceIdParam, userIdField) middleware. The second
configuration argument is unused by the source. Ownership is checked only
when resourceIdParam is the literal string id, by JS loose equality between
req.params.id and req.user.id; an absent parameter (undefined) compares
false against a number. -/
def ownerOrAdmin (resourceIdParam : String) (_userIdField : String)
    (user : Option UserRec) (params : List (String × String)) : MwOutcome :=
  match user with
  | none => .reject 401 ("Authentication required")
  | some u =>
    if u.role == USER_ROLES.ADMIN then .next
    else if resourceIdParam == ("id") &&
        (match paramsGet params ("id") with
         | some s => jsLooseEqStrNat s u.id
         | none => false) then .next
    else .reject 403 ("Access denied")

/-! ## Per-user rate limiting (src/middlewares/auth.js, userRateLimit)

The closure keeps, per user, the array of timestamps of requests it let
through. One middleware invocation filters that array to the timestamps
strictly inside the window ending now, stores the filtered array back,
rejects with 429 if it already holds maxRequests entries, and otherwise
records the current timestamp and continues. -/

/-- One invocation of the userRateLimit middleware for one user: given the
stored timestamp array and the current time, produce the outcome and the
array stored back in the map. -/
def userRateLimitStep (maxRequests : Nat) (windowMs : Int) (requests : List Int)
    (now : Int) : MwOutcome × List Int :=
  let windowStart := now - windowMs
  let validRequests := requests.filter (fun t => decide (t > windowStart))
  if validRequests.length ≥ maxRequests then
    (.reject 429 ("Rate limit exceeded"), validRequests)
  else
    (.next, validRequests ++ [now])

/-- Sequential invocations of userRateLimit for one user at the given
arrival times: the list of outcomes and the final stored array. -/
def userRateLimitRun (maxRequests : Nat) (windowMs : Int) (requests : List Int) :
    List Int → List MwOutcome × List Int
  | [] => ([], requests)
  | t :: ts =>
    let step := userRateLimitStep maxRequests windowMs requests t
    let rest := userRateLimitRun maxRequests windowMs step.2 ts
    (step.1 :: rest.1, rest.2)

/-! ## MemoryCache and cache middleware (src/middlewares/cache.js) -/

/-- A stored cache entry: `{data, timestamp, ttl}` with ttl in milliseconds
(set receives seconds and stores ttl * 1000). -/
structure CacheEntry where
  data : JValue
  timestamp : Int
  ttl : Int
deriving Repr, DecidableEq

/-- The cache Map, an association list from keys to entries (unique keys). -/
abbrev Cache := List (String × CacheEntry)

/-- Map.get on the cache: the entry stored under the key, if any. -/
def cacheLookup (c : Cache) (k : String) : Option CacheEntry :=
  (c.find? (fun p => p.1 == k)).map (fun p => p.2)

/-- MemoryCache.delete: remove the binding of the key. -/
def cacheDelete (c : Cache) (k : String) : Cache :=
  c.filter (fun p => p.1 != k)

/-- MemoryCache.set: store `{data := v, timestamp := now, ttl := ttlSec * 1000}`
under the key, replacing any previous binding. (Map.set replaces in place;
binding order is immaterial to the verified properties, so the new binding
is appended after deleting the old one.) -/
def cacheSet (c : Cache) (k : String) (v : JValue) (ttlSec : Int) (now : Int) : Cache :=
  cacheDelete c k ++ [(k, ⟨v, now, ttlSec * 1000⟩)]

/-- MemoryCache.get at the given current time: returns null when the key is
absent; deletes the entry and returns null when `now - timestamp > ttl`;
otherwise returns the stored data. The pair is (returned value, cache after
the call). -/
def cacheGet (c : Cache) (k : String) (now : Int) : JValue × Cache :=
  match cacheLookup c k with
  | none => (.jnull, c)
  | some item =>
    if now - item.timestamp > item.ttl then (.jnull, cacheDelete c k)
    else (item.data, c)

/-- The response produced by one request through the cache middleware:
status, JSON body, the X-Cache header if set, and whether the downstream
handler executed. -/
structure MwResponse where
  status : Nat
  body : JValue
  xCache : Option String
  handlerRan : Bool
deriving Repr, DecidableEq

/-- One anonymous request through cacheMiddleware (the apiCache configuration:
condition requires method GET; skipCache false; no authenticated user).
`isGet` is the condition's value; `key` the generated cache key; the
downstream handler would respond with `handlerStatus` and `handlerBody`
via res.json. On a truthy cached value the middleware answers 200 with the
cached payload, sets X-Cache HIT, and never calls the handler. Otherwise the
handler runs and the res.json wrapper stores the body and sets X-Cache MISS
exactly when the response status is 200. -/
def cacheMiddleware (c : Cache) (isGet : Bool) (key : String) (ttlSec : Int)
    (now : Int) (handlerStatus : Nat) (handlerBody : JValue) : MwResponse × Cache :=
  if !isGet then
    (⟨handlerStatus, handlerBody, none, true⟩, c)
  else
    let got := cacheGet c key now
    if truthy got.1 then
      (⟨200, got.1, some ("HIT"), false⟩, got.2)
    else
      if handlerStatus == 200 then
        (⟨handlerStatus, handlerBody, some ("MISS"), true⟩,
          cacheSet got.2 key handlerBody ttlSec now)
      else
        (⟨handlerStatus, handlerBody, none, true⟩, got.2)

/-- The invalidateCache(patterns) middleware's res.send wrapper, applied when
the wrapped response is sent with the given status: on a 2xx status, for each
pattern in order, every cache key containing that pattern is deleted. -/
def invalidateCacheOnSend (patterns : List String) (c : Cache) (status : Nat) : Cache :=
  if 200 ≤ status ∧ status < 300 then
    if patterns.length > 0 then
      patterns.foldl (fun acc pat => acc.filter (fun p => !(strIncl p.1 pat))) c
    else c
  else c

/-! ## Association-list helper lemmas -/

/-- Looking up a key after deleting it finds nothing. -/
lemma find?_beq_filter_bne {α : Type} (l : List (String × α)) (k : String) :
    (l.filter (fun p => p.1 != k)).find? (fun p => p.1 == k) = none := by
  rw [List.find?_eq_none]
  intro x hx
  have hne := (List.mem_filter.mp hx).2
  simp only [bne_iff_ne, ne_eq] at hne
  simp [hne]

/-- Deleting one key leaves lookups of any other key unchanged. -/
lemma find?_beq_filter_bne_other {α : Type} (l : List (String × α)) (kd k2 : String)
    (h : k2 ≠ kd) :
    (l.filter (fun p => p.1 != kd)).find? (fun p => p.1 == k2) =
      l.find? (fun p => p.1 == k2) := by
  induction l with
  | nil => rfl
  | cons a l ih =>
    by_cases ha : a.1 = kd
    · have hne : (a.1 == k2) = false := by
        simp [ha]
        exact fun hh => h hh.symm
      have hfa : (a.1 != kd) = false := by simp [ha]
      rw [List.filter_cons, hfa]
      simp only [Bool.false_eq_true, if_false]
      rw [ih, List.find?_cons, hne]
    · have hfa : (a.1 != kd) = true := by simp [ha]
      rw [List.filter_cons, hfa, if_pos rfl]
      by_cases hk2 : a.1 = k2
      · have hb : (a.1 == k2) = true := by simp [hk2]
        rw [List.find?_cons, hb, List.find?_cons, hb]
      · have hb : (a.1 == k2) = false := by simp [hk2]
        rw [List.find?_cons, hb, List.find?_cons, hb, ih]

/-- Instance of the deletion lemmas for user attribute objects. -/
lemma jsGet_delete_self (o : List (String × JValue)) (k : String) :
    jsGet (jsDeleteKey o k) k = none := by
  unfold jsGet jsDeleteKey
  rw [find?_beq_filter_bne]
  rfl

/-- Deleting one attribute leaves every other attribute's lookup unchanged. -/
lemma jsGet_delete_other (o : List (String × JValue)) (kd k2 : String) (h : k2 ≠ kd) :
    jsGet (jsDeleteKey o kd) k2 = jsGet o k2 := by
  unfold jsGet jsDeleteKey
  rw [find?_beq_filter_bne_other _ _ _ h]

/-- Deletion preserves an already-absent lookup. -/
lemma jsGet_delete_none (o : List (String × JValue)) (kd k2 : String)
    (h : jsGet o k2 = none) : jsGet (jsDeleteKey o kd) k2 = none := by
  by_cases hkk : k2 = kd
  · subst hkk
    exact jsGet_delete_self o k2
  · rw [jsGet_delete_other o kd k2 hkk]
    exact h

/-! ## C10: User.prototype.toJSON hides the sensitive fields -/

/-- C10: the serialized form produced by User.prototype.toJSON never contains
the fields password, resetPasswordToken, resetPasswordExpires,
emailVerificationToken, or twoFactorSecret, whatever the stored values; every
other stored attribute is preserved unchanged. -/
theorem userToJSON_hides_sensitive_preserves_rest
    (values : List (String × JValue)) (k : String) :
    (k ∈ sensitiveFields → jsGet (userToJSON values) k = none) ∧
    (k ∉ sensitiveFields → jsGet (userToJSON values) k = jsGet values k) := by
  have hunfold : userToJSON values =
      jsDeleteKey (jsDeleteKey (jsDeleteKey (jsDeleteKey (jsDeleteKey values
        ("password")) ("resetPasswordToken")) ("resetPasswordExpires"))
        ("emailVerificationToken")) ("twoFactorSecret") := rfl
  constructor
  · intro hk
    rw [hunfold]
    simp only [sensitiveFields, List.mem_cons, List.not_mem_nil, or_false] at hk
    rcases hk with h | h | h | h | h <;> subst h
    · exact jsGet_delete_none _ _ _ (jsGet_delete_none _ _ _ (jsGet_delete_none _ _ _
        (jsGet_delete_none _ _ _ (jsGet_delete_self _ _))))
    · exact jsGet_delete_none _ _ _ (jsGet_delete_none _ _ _ (jsGet_delete_none _ _ _
        (jsGet_delete_self _ _)))
    · exact jsGet_delete_none _ _ _ (jsGet_delete_none _ _ _ (jsGet_delete_self _ _))
    · exact jsGet_delete_none _ _ _ (jsGet_delete_self _ _)
    · exact jsGet_delete_self _ _
  · intro hk
    simp only [sensitiveFields, List.mem_cons, List.not_mem_nil, or_false, not_or] at hk
    obtain ⟨h1, h2, h3, h4, h5⟩ := hk
    rw [hunfold, jsGet_delete_other _ _ _ h5, jsGet_delete_other _ _ _ h4,
      jsGet_delete_other _ _ _ h3, jsGet_delete_other _ _ _ h2,
      jsGet_delete_other _ _ _ h1]

/-- A concrete user attribute set with sensitive and ordinary fields. -/
def demoUserValues : List (String × JValue) :=
  [(("id"), .jnum 1), (("email"), .jstr ("user-example")),
   (("password"), .jstr ("hashed-secret")), (("twoFactorSecret"), .jstr ("otp-seed"))]

/-- Witness for C10 at a concrete instance: the password disappears and the
email attribute survives unchanged. -/
theorem userToJSON_hides_sensitive_preserves_rest_witness :
    jsGet (userToJSON demoUserValues) ("password") = none ∧
    jsGet (userToJSON demoUserValues) ("email") = jsGet demoUserValues ("email") :=
  ⟨(userToJSON_hides_sensitive_preserves_rest demoUserValues ("password")).1 (by decide),
   (userToJSON_hides_sensitive_preserves_rest demoUserValues ("email")).2 (by decide)⟩

/-! ## C1: revoked or expired refresh tokens are never exchangeable -/

/-- C1: a revoked or expired refresh token record is never treated as
exchangeable: isValid returns false on it, findValidToken never returns it,
and findValidToken returns a record only when that record bears the searched
token, is not revoked, and expires strictly after the current time. -/
theorem refreshToken_revoked_or_expired_never_exchangeable
    (db : List RefreshTokenRec) (tok : String) (now : Int) (r : RefreshTokenRec) :
    ((r.isRevoked = true ∨ r.expiresAt < now) → r.isValid now = false) ∧
    (findValidToken db tok now = some r →
      r.token = tok ∧ r.isRevoked = false ∧ now < r.expiresAt) ∧
    ((r.isRevoked = true ∨ r.expiresAt < now) → findValidToken db tok now ≠ some r) := by
  refine ⟨?_, ?_, ?_⟩
  · rintro (h | h) <;>
      simp [RefreshTokenRec.isValid, RefreshTokenRec.isExpired, h]
  · intro h
    have hp := List.find?_some h
    simp only [Bool.and_eq_true, beq_iff_eq, decide_eq_true_eq] at hp
    exact ⟨hp.1.1, hp.1.2, hp.2⟩
  · rintro hbad h
    have hp := List.find?_some h
    simp only [Bool.and_eq_true, beq_iff_eq, decide_eq_true_eq] at hp
    rcases hbad with hb | hb
    · rw [hp.1.2] at hb
      exact Bool.false_ne_true hb
    · exact absurd hp.2 (by omega)

/-- A revoked refresh token row. -/
def demoRevokedToken : RefreshTokenRec := ⟨("tok-revoked"), 1, 1000, true⟩

/-- A live refresh token row. -/
def demoLiveToken : RefreshTokenRec := ⟨("tok-live"), 1, 2000, false⟩

/-- Witness for C1 at concrete rows: a revoked token is invalid and is not
found, and a found token satisfies the validity facts. -/
theorem refreshToken_revoked_or_expired_never_exchangeable_witness :
    demoRevokedToken.isValid 500 = false ∧
    (demoLiveToken.token = ("tok-live") ∧ demoLiveToken.isRevoked = false ∧
      (500 : Int) < demoLiveToken.expiresAt) ∧
    findValidToken [demoRevokedToken, demoLiveToken] ("tok-revoked") 500 ≠
      some demoRevokedToken :=
  ⟨(refreshToken_revoked_or_expired_never_exchangeable [] ("") 500 demoRevokedToken).1
      (Or.inl (by decide)),
   (refreshToken_revoked_or_expired_never_exchangeable [demoRevokedToken, demoLiveToken]
      ("tok-live") 500 demoLiveToken).2.1 (by decide),
   (refreshToken_revoked_or_expired_never_exchangeable [demoRevokedToken, demoLiveToken]
      ("tok-revoked") 500 demoRevokedToken).2.2 (Or.inl (by decide))⟩

/-! ## C2: only active users obtain a session through authenticate -/

/-- C2: the authenticate middleware attaches req.user and continues only when
the bearer token verifies, the referenced user exists in the users table, and
that user's status is active; whenever the decoded token leads to a user whose
status is not active, the request is answered 401 and no user is attached. -/
theorem authenticate_establishes_session_only_for_active
    (verify : String → Except JwtFailure Nat) (db : List UserRec) (hdr : Option String) :
    (∀ u, authenticate verify db hdr = .proceed u →
        u.status = USER_STATUS.ACTIVE ∧ u ∈ db ∧
        ∃ h, hdr = some h ∧ strStartsWith h ("Bearer ") = true ∧
          verify (strDrop h 7) = .ok u.id) ∧
    (∀ h tokenId u, hdr = some h → strStartsWith h ("Bearer ") = true →
        verify (strDrop h 7) = .ok tokenId →
        db.find? (fun x => x.id == tokenId) = some u →
        u.status ≠ USER_STATUS.ACTIVE →
        authenticate verify db hdr = .reject 401 ("Account is not active")) := by
  constructor
  · intro u hu
    cases hdr with
    | none => simp [authenticate] at hu
    | some h =>
      simp only [authenticate] at hu
      cases hs : strStartsWith h ("Bearer ") with
      | false => simp [hs] at hu
      | true =>
        simp only [hs, if_true] at hu
        cases hv : verify (strDrop h 7) with
        | error e => simp [hv] at hu
        | ok tokenId =>
          simp only [hv] at hu
          cases hf : db.find? (fun x => x.id == tokenId) with
          | none => simp [hf] at hu
          | some w =>
            simp only [hf] at hu
            cases hst : (w.status == USER_STATUS.ACTIVE) with
            | false => simp [hst] at hu
            | true =>
              simp only [hst, if_true, AuthOutcome.proceed.injEq] at hu
              subst hu
              have hid : w.id = tokenId := by
                have := List.find?_some hf
                simpa using this
              refine ⟨by simpa using hst, List.mem_of_find?_eq_some hf, h, rfl, hs, ?_⟩
              rw [hid]
              exact hv
  · intro h tokenId u hh hs hv hf hst
    subst hh
    have hstb : (u.status == USER_STATUS.ACTIVE) = false := by
      simpa using hst
    simp [authenticate, hs, hv, hf, hstb]

/-- A concrete token verifier: one valid token for user 1, one for user 2,
everything else invalid. -/
def demoVerify : String → Except JwtFailure Nat :=
  fun t =>
    if t == ("tok-active") then .ok 1
    else if t == ("tok-pending") then .ok 2
    else .error .invalid

/-- A users table with one active and one pending user. -/
def demoUsers : List UserRec :=
  [⟨1, USER_ROLES.USER, USER_STATUS.ACTIVE⟩, ⟨2, USER_ROLES.USER, USER_STATUS.PENDING⟩]

/-- Witness for C2: a session established at a concrete input is for an
active user, and the concrete pending user is rejected 401. -/
theorem authenticate_establishes_session_only_for_active_witness :
    (⟨1, USER_ROLES.USER, USER_STATUS.ACTIVE⟩ : UserRec).status = USER_STATUS.ACTIVE ∧
    authenticate demoVerify demoUsers (some ("Bearer tok-pending")) =
      .reject 401 ("Account is not active") :=
  ⟨((authenticate_establishes_session_only_for_active demoVerify demoUsers
      (some ("Bearer tok-active"))).1 ⟨1, USER_ROLES.USER, USER_STATUS.ACTIVE⟩
      (by decide)).1,
   (authenticate_establishes_session_only_for_active demoVerify demoUsers
      (some ("Bearer tok-pending"))).2 ("Bearer tok-pending") 2
      ⟨2, USER_ROLES.USER, USER_STATUS.PENDING⟩ rfl (by decide) (by rfl) (by decide)
      (by decide)⟩

/-! ## C3: authorize grants access exactly to the required roles -/

/-- C3: with a principal attached, authorize(...) calls next exactly when the
principal's role is among the required roles, and answers 403 when it is not;
without a principal it answers 401. -/
theorem authorize_grants_iff_role_required (roles : List String) (user : Option UserRec) :
    (∀ u, user = some u →
      ((authorize roles user = .next ↔ u.role ∈ roles) ∧
       (u.role ∉ roles →
          authorize roles user = .reject 403 ("Insufficient permissions")))) ∧
    (user = none → authorize roles user = .reject 401 ("Authentication required")) := by
  constructor
  · intro u hu
    subst hu
    by_cases hm : u.role ∈ roles
    · have hc : roles.contains u.role = true := List.elem_iff.mpr hm
      simp [authorize, hc, hm]
    · have hc : roles.contains u.role = false := by
        cases hcc : roles.contains u.role
        · rfl
        · exact absurd (List.elem_iff.mp hcc) hm
      simp [authorize, hc, hm]
  · intro hu
    subst hu
    rfl

/-- Witness for C3 at concrete inputs: a moderator is granted on an
admin-or-moderator route, a plain user is denied 403 there, and an anonymous
request is denied 401. -/
theorem authorize_grants_iff_role_required_witness :
    authorize [USER_ROLES.ADMIN, USER_ROLES.MODERATOR]
      (some ⟨3, USER_ROLES.MODERATOR, USER_STATUS.ACTIVE⟩) = .next ∧
    authorize [USER_ROLES.ADMIN, USER_ROLES.MODERATOR]
      (some ⟨4, USER_ROLES.USER, USER_STATUS.ACTIVE⟩) =
      .reject 403 ("Insufficient permissions") ∧
    authorize [USER_ROLES.ADMIN, USER_ROLES.MODERATOR] none =
      .reject 401 ("Authentication required") :=
  ⟨(((authorize_grants_iff_role_required [USER_ROLES.ADMIN, USER_ROLES.MODERATOR]
      (some ⟨3, USER_ROLES.MODERATOR, USER_STATUS.ACTIVE⟩)).1 _ rfl).1).mpr (by decide),
   ((authorize_grants_iff_role_required [USER_ROLES.ADMIN, USER_ROLES.MODERATOR]
      (some ⟨4, USER_ROLES.USER, USER_STATUS.ACTIVE⟩)).1 _ rfl).2 (by decide),
   (authorize_grants_iff_role_required [USER_ROLES.ADMIN, USER_ROLES.MODERATOR] none).2
      rfl⟩

/-! ## C4: ownerOrAdmin honors ownership only for the default parameter -/

/-- A non-admin principal who owns resource 7. -/
def demoOwner : UserRec := ⟨7, USER_ROLES.USER, USER_STATUS.ACTIVE⟩

/-- Counterexample to C4 as stated: with the resource-id route parameter named
userId instead of the default id, the principal with id 7 requests the
resource whose owner id, carried by that parameter, is 7 — the claim predicts
allow (principal id equals resource owner id), yet the middleware answers 403,
because the source checks ownership only when the configured parameter name is
exactly the literal id. -/
theorem ownerOrAdmin_denies_owner_on_nondefault_param :
    ownerOrAdmin ("userId") ("userId") (some demoOwner) [(("userId"), ("7"))] =
      .reject 403 ("Access denied") ∧
    demoOwner.id = 7 ∧ jsLooseEqStrNat ("7") demoOwner.id = true ∧
    demoOwner.role ≠ USER_ROLES.ADMIN := by
  refine ⟨rfl, rfl, by decide, by decide⟩

/-- C4 amended: ownerOrAdmin allows every admin; for a non-admin principal it
allows exactly when the configured resource-id parameter name is the default
id and req.params.id loosely equals the principal's id; with any other
configured parameter name a non-admin is always denied 403, whether or not
they own the resource; with no principal it denies 401. -/
theorem ownerOrAdmin_admin_or_default_id_param_owner
    (resourceIdParam userIdField : String) (user : Option UserRec)
    (params : List (String × String)) :
    (user = none → ownerOrAdmin resourceIdParam userIdField user params =
      .reject 401 ("Authentication required")) ∧
    (∀ u, user = some u → u.role = USER_ROLES.ADMIN →
      ownerOrAdmin resourceIdParam userIdField user params = .next) ∧
    (∀ u, user = some u → u.role ≠ USER_ROLES.ADMIN → resourceIdParam ≠ ("id") →
      ownerOrAdmin resourceIdParam userIdField user params =
        .reject 403 ("Access denied")) ∧
    (∀ u, user = some u → u.role ≠ USER_ROLES.ADMIN → resourceIdParam = ("id") →
      (ownerOrAdmin resourceIdParam userIdField user params = .next ↔
        ∃ s, paramsGet params ("id") = some s ∧ jsLooseEqStrNat s u.id = true)) := by
  refine ⟨?_, ?_, ?_, ?_⟩
  · intro hu
    subst hu
    rfl
  · intro u hu hrole
    subst hu
    have hb : (u.role == USER_ROLES.ADMIN) = true := by simp [hrole]
    simp [ownerOrAdmin, hb]
  · intro u hu hrole hparam
    subst hu
    have hb : (u.role == USER_ROLES.ADMIN) = false := by simp [hrole]
    have hp : (resourceIdParam == ("id")) = false := by simp [hparam]
    simp [ownerOrAdmin, hb, hp]
  · intro u hu hrole hparam
    subst hu
    subst hparam
    have hb : (u.role == USER_ROLES.ADMIN) = false := by simp [hrole]
    cases hg : paramsGet params ("id") with
    | none => simp [ownerOrAdmin, hb, hg]
    | some s =>
      cases hle : jsLooseEqStrNat s u.id with
      | false =>
        simp [ownerOrAdmin, hb, hg, hle]
      | true =>
        simp only [ownerOrAdmin, hb, hg, hle]
        constructor
        · intro _
          exact ⟨s, rfl, hle⟩
        · intro _
          simp

/-- Witness for C4 amended, at concrete inputs: an admin passes on a
non-default parameter, a non-admin owner passes on the default id parameter,
a non-admin is denied on a non-default parameter, and an anonymous request is
denied 401. -/
theorem ownerOrAdmin_admin_or_default_id_param_owner_witness :
    ownerOrAdmin ("userId") ("userId")
      (some ⟨1, USER_ROLES.ADMIN, USER_STATUS.ACTIVE⟩) [] = .next ∧
    ownerOrAdmin ("id") ("userId") (some demoOwner) [(("id"), ("7"))] = .next ∧
    ownerOrAdmin ("orderId") ("userId") (some demoOwner) [(("orderId"), ("7"))] =
      .reject 403 ("Access denied") ∧
    ownerOrAdmin ("id") ("userId") none [] = .reject 401 ("Authentication required") :=
  ⟨(ownerOrAdmin_admin_or_default_id_param_owner ("userId") ("userId")
      (some ⟨1, USER_ROLES.ADMIN, USER_STATUS.ACTIVE⟩) []).2.1 _ rfl rfl,
   ((ownerOrAdmin_admin_or_default_id_param_owner ("id") ("userId")
      (some demoOwner) [(("id"), ("7"))]).2.2.2 _ rfl (by decide) rfl).mpr
      ⟨("7"), rfl, by decide⟩,
   (ownerOrAdmin_admin_or_default_id_param_owner ("orderId") ("userId")
      (some demoOwner) [(("orderId"), ("7"))]).2.2.1 _ rfl (by decide) (by decide),
   (ownerOrAdmin_admin_or_default_id_param_owner ("id") ("userId") none []).1 rfl⟩

/-! ## C5: the per-user rate limit window -/

/-- When every stored timestamp is inside the window ending now, one
invocation keeps the whole array and branches on whether it already holds
maxRequests entries. -/
lemma userRateLimitStep_all_within (maxRequests : Nat) (windowMs : Int) (st : List Int)
    (now : Int) (hwin : ∀ t ∈ st, now - t < windowMs) :
    userRateLimitStep maxRequests windowMs st now =
      if st.length ≥ maxRequests then (.reject 429 ("Rate limit exceeded"), st)
      else (.next, st ++ [now]) := by
  have hf : st.filter (fun t => decide (t > now - windowMs)) = st := by
    apply List.filter_eq_self.mpr
    intro a ha
    have := hwin a ha
    simp only [decide_eq_true_eq]
    omega
  simp [userRateLimitStep, hf]

/-- Processing a burst of requests that all fall inside one window of each
other (and of the already-stored timestamps): the first maxRequests slots
remaining pass, everything after is rejected 429. -/
lemma userRateLimitRun_burst (maxRequests : Nat) (windowMs : Int) :
    ∀ (ts st : List Int),
      (∀ t ∈ st ++ ts, ∀ u ∈ st ++ ts, u - t < windowMs) →
      (userRateLimitRun maxRequests windowMs st ts).1 =
        List.replicate (min ts.length (maxRequests - st.length)) MwOutcome.next ++
        List.replicate (ts.length - (maxRequests - st.length))
          (MwOutcome.reject 429 ("Rate limit exceeded")) := by
  intro ts
  induction ts with
  | nil =>
    intro st h
    simp [userRateLimitRun]
  | cons t ts ih =>
    intro st h
    have hwin : ∀ x ∈ st, t - x < windowMs := by
      intro x hx
      exact h x (List.mem_append_left _ hx) t
        (List.mem_append_right _ (List.mem_cons_self _ _))
    have hstep := userRateLimitStep_all_within maxRequests windowMs st t hwin
    by_cases hge : st.length ≥ maxRequests
    · have hsub : ∀ x ∈ st ++ ts, ∀ u ∈ st ++ ts, u - x < windowMs := by
        intro x hx u hu
        apply h
        · simp only [List.mem_append, List.mem_cons] at hx ⊢
          tauto
        · simp only [List.mem_append, List.mem_cons] at hu ⊢
          tauto
      simp only [userRateLimitRun]
      rw [hstep, if_pos hge]
      rw [ih st hsub]
      have h0 : maxRequests - st.length = 0 := by omega
      simp [h0, List.replicate_succ]
    · have hsub : ∀ x ∈ (st ++ [t]) ++ ts, ∀ u ∈ (st ++ [t]) ++ ts, u - x < windowMs := by
        intro x hx u hu
        apply h
        · simp only [List.mem_append, List.mem_cons, List.mem_singleton] at hx ⊢
          tauto
        · simp only [List.mem_append, List.mem_cons, List.mem_singleton] at hu ⊢
          tauto
      simp only [userRateLimitRun]
      rw [hstep, if_neg hge]
      rw [ih (st ++ [t]) hsub]
      have hlen : (st ++ [t]).length = st.length + 1 := by simp
      rw [hlen]
      have hm1 : min (ts.length + 1) (maxRequests - st.length) =
          min ts.length (maxRequests - (st.length + 1)) + 1 := by omega
      have hm2 : (ts.length + 1) - (maxRequests - st.length) =
          ts.length - (maxRequests - (st.length + 1)) := by omega
      simp only [List.length_cons, hm1, hm2, List.replicate_succ, List.cons_append]

/-- C5: within one window (every pair of arrival times less than windowMs
apart), the requests with ordinal at most maxRequests pass to the next stage
and every later request of the window is rejected 429 without reaching the
handler; and once the window has elapsed relative to everything stored (with
a positive configured maximum), the next request passes again. -/
theorem userRateLimit_window_spec (maxRequests : Nat) (windowMs : Int) :
    (∀ ts : List Int, (∀ t ∈ ts, ∀ u ∈ ts, u - t < windowMs) →
      (userRateLimitRun maxRequests windowMs [] ts).1 =
        List.replicate (min ts.length maxRequests) MwOutcome.next ++
        List.replicate (ts.length - maxRequests)
          (MwOutcome.reject 429 ("Rate limit exceeded"))) ∧
    (∀ st now, 1 ≤ maxRequests → (∀ t ∈ st, windowMs ≤ now - t) →
      (userRateLimitStep maxRequests windowMs st now).1 = MwOutcome.next) := by
  constructor
  · intro ts h
    have hb := userRateLimitRun_burst maxRequests windowMs ts [] (by simpa using h)
    simpa using hb
  · intro st now hmax helapsed
    have hf : st.filter (fun t => decide (t > now - windowMs)) = [] := by
      rw [List.filter_eq_nil_iff]
      intro a ha
      have := helapsed a ha
      simp only [decide_eq_true_eq]
      omega
    simp only [userRateLimitStep, hf, List.length_nil]
    rw [if_neg (by omega)]

/-- Witness for C5 at a concrete window: limit 2 per 1000 ms; three requests
inside one window give pass, pass, 429; and a request 1500 ms after the stored
ones passes again. -/
theorem userRateLimit_window_spec_witness :
    (userRateLimitRun 2 1000 [] [0, 1, 2]).1 =
      [MwOutcome.next, MwOutcome.next, MwOutcome.reject 429 ("Rate limit exceeded")] ∧
    (userRateLimitStep 2 1000 [0, 1] 1500).1 = MwOutcome.next := by
  constructor
  · have hb := (userRateLimit_window_spec 2 1000).1 [0, 1, 2] (by decide)
    simpa using hb
  · exact (userRateLimit_window_spec 2 1000).2 [0, 1] 1500 (by decide) (by decide)

/-! ## Cache lookup lemmas -/

/-- Deleting a key removes its binding. -/
lemma cacheLookup_delete_self (c : Cache) (k : String) :
    cacheLookup (cacheDelete c k) k = none := by
  unfold cacheLookup cacheDelete
  rw [find?_beq_filter_bne]
  rfl

/-- Setting a key stores exactly the entry `{data, timestamp := now,
ttl := ttlSec * 1000}` under it. -/
lemma cacheLookup_set_self (c : Cache) (k : String) (v : JValue) (ttlSec now : Int) :
    cacheLookup (cacheSet c k v ttlSec now) k = some ⟨v, now, ttlSec * 1000⟩ := by
  unfold cacheLookup cacheSet cacheDelete
  rw [List.find?_append, find?_beq_filter_bne]
  simp

/-- A lookup that already misses still misses after any filtering. -/
lemma cacheLookup_filter_none_mono (c : Cache) (q : String × CacheEntry → Bool)
    (k : String) (h : cacheLookup c k = none) : cacheLookup (c.filter q) k = none := by
  have h0 : c.find? (fun p => p.1 == k) = none := by
    cases hf : c.find? (fun p => p.1 == k) with
    | none => rfl
    | some a =>
      unfold cacheLookup at h
      rw [hf] at h
      simp at h
  rw [List.find?_eq_none] at h0
  unfold cacheLookup
  rw [(List.find?_eq_none).mpr (fun x hx => h0 x (List.mem_of_mem_filter hx))]
  rfl

/-- Purging one pattern removes every binding whose key contains it. -/
lemma cacheLookup_filter_out_self (c : Cache) (pat k : String)
    (h : strIncl k pat = true) :
    cacheLookup (c.filter (fun p => !(strIncl p.1 pat))) k = none := by
  have hfind : (c.filter (fun p => !(strIncl p.1 pat))).find? (fun p => p.1 == k)
      = none := by
    rw [List.find?_eq_none]
    intro x hx hbeq
    have hq := (List.mem_filter.mp hx).2
    have hx1 : x.1 = k := by simpa using hbeq
    rw [hx1, h] at hq
    simp at hq
  unfold cacheLookup
  rw [hfind]
  rfl

/-- Purging one pattern leaves every binding whose key does not contain it
unchanged, including its position relative to the other survivors. -/
lemma cacheLookup_filter_keep_self (c : Cache) (pat k : String)
    (h : strIncl k pat = false) :
    cacheLookup (c.filter (fun p => !(strIncl p.1 pat))) k = cacheLookup c k := by
  induction c with
  | nil => rfl
  | cons a c ih =>
    by_cases hb : a.1 = k
    · have hkeep : (!(strIncl a.1 pat)) = true := by simp [hb, h]
      have hhead : (a.1 == k) = true := by simp [hb]
      unfold cacheLookup
      rw [List.filter_cons, hkeep, if_pos rfl, List.find?_cons, hhead,
        List.find?_cons, hhead]
    · have hhead : (a.1 == k) = false := by simp [hb]
      by_cases hq : strIncl a.1 pat = true
      · have hdrop : (!(strIncl a.1 pat)) = false := by simp [hq]
        unfold cacheLookup at ih ⊢
        rw [List.filter_cons, hdrop]
        simp only [Bool.false_eq_true, if_false]
        rw [ih, List.find?_cons, hhead]
      · have hkeep : (!(strIncl a.1 pat)) = true := by simp [hq]
        unfold cacheLookup at ih ⊢
        rw [List.filter_cons, hkeep, if_pos rfl, List.find?_cons, hhead,
          List.find?_cons, hhead]
        exact ih

/-- A lookup that already misses still misses after purging a pattern list. -/
lemma cacheLookup_foldl_preserve_none (patterns : List String) :
    ∀ (c : Cache) (k : String), cacheLookup c k = none →
      cacheLookup (patterns.foldl (fun acc pat =>
        acc.filter (fun p => !(strIncl p.1 pat))) c) k = none := by
  induction patterns with
  | nil =>
    intro c k h
    simpa using h
  | cons pat ps ih =>
    intro c k h
    simp only [List.foldl_cons]
    exact ih _ k (cacheLookup_filter_none_mono _ _ k h)

/-- Sequentially purging a pattern list removes every binding whose key
contains some pattern of the list. -/
lemma cacheLookup_foldl_purge_none (patterns : List String) :
    ∀ (c : Cache) (k : String),
      (∃ pat ∈ patterns, strIncl k pat = true) →
      cacheLookup (patterns.foldl (fun acc pat =>
        acc.filter (fun p => !(strIncl p.1 pat))) c) k = none := by
  induction patterns with
  | nil =>
    intro c k h
    rcases h with ⟨pat, hmem, _⟩
    simp at hmem
  | cons pat ps ih =>
    intro c k h
    simp only [List.foldl_cons]
    by_cases hp : strIncl k pat = true
    · exact cacheLookup_foldl_preserve_none ps _ k
        (cacheLookup_filter_out_self c pat k hp)
    · rcases h with ⟨q, hq, hqt⟩
      rcases List.mem_cons.mp hq with rfl | hq2
      · exact absurd hqt hp
      · exact ih _ k ⟨q, hq2, hqt⟩

/-- Sequentially purging a pattern list leaves every binding whose key
contains no pattern of the list unchanged. -/
lemma cacheLookup_foldl_preserve_untagged (patterns : List String) :
    ∀ (c : Cache) (k : String),
      (∀ pat ∈ patterns, strIncl k pat = false) →
      cacheLookup (patterns.foldl (fun acc pat =>
        acc.filter (fun p => !(strIncl p.1 pat))) c) k = cacheLookup c k := by
  induction patterns with
  | nil =>
    intro c k _
    rfl
  | cons pat ps ih =>
    intro c k h
    simp only [List.foldl_cons]
    rw [ih _ k (fun q hq => h q (List.mem_cons_of_mem _ hq)),
      cacheLookup_filter_keep_self c pat k (h pat (List.mem_cons_self _ _))]

/-! ## C8: MemoryCache.get never serves an expired entry -/

/-- C8: whenever the time elapsed since an entry was stored exceeds its ttl,
MemoryCache.get returns null and removes the entry instead of serving the
stored payload. -/
theorem memoryCache_get_never_serves_expired (c : Cache) (k : String) (now : Int)
    (e : CacheEntry) (hfound : cacheLookup c k = some e)
    (hexp : e.ttl < now - e.timestamp) :
    (cacheGet c k now).1 = JValue.jnull ∧ cacheLookup (cacheGet c k now).2 k = none := by
  have hif : now - e.timestamp > e.ttl := hexp
  simp only [cacheGet, hfound]
  rw [if_pos hif]
  exact ⟨rfl, cacheLookup_delete_self c k⟩

/-- Witness for C8: a concrete entry stored at time 0 with ttl 5000 ms is not
served at time 6000 and is removed. -/
theorem memoryCache_get_never_serves_expired_witness :
    (cacheGet [(("k1"), ⟨.jstr ("v"), 0, 5000⟩)] ("k1") 6000).1 = JValue.jnull ∧
    cacheLookup (cacheGet [(("k1"), ⟨.jstr ("v"), 0, 5000⟩)] ("k1") 6000).2 ("k1")
      = none :=
  memoryCache_get_never_serves_expired [(("k1"), ⟨.jstr ("v"), 0, 5000⟩)] ("k1") 6000
    ⟨.jstr ("v"), 0, 5000⟩ (by decide) (by decide)

/-! ## C6: the miss path stores the payload only on status 200 -/

/-- Counterexample to C6 as stated: a cache-missing GET whose handler responds
201 — a 2xx status — is neither stored in the cache nor marked MISS, because
the res.json wrapper tests statusCode strictly equal to 200, not the 2xx
range. -/
theorem cacheMiddleware_does_not_store_201 :
    (200 ≤ 201 ∧ 201 < 300) ∧
    (cacheMiddleware [] true ("GET:api:products") 1800 0 201
      (.jobj ("payload"))).1.xCache = none ∧
    cacheLookup (cacheMiddleware [] true ("GET:api:products") 1800 0 201
      (.jobj ("payload"))).2 ("GET:api:products") = none :=
  ⟨by omega, rfl, rfl⟩

/-- C6 amended: on a cache miss, the response payload is stored under the
request's key with the configured TTL and the response carries the MISS
indicator exactly when the response status is 200; for any other status —
including the rest of the 2xx range — nothing is stored and no indicator is
set. -/
theorem cacheMiddleware_stores_exactly_on_200 (c : Cache) (key : String)
    (ttlSec now : Int) (status : Nat) (body : JValue)
    (hmiss : truthy (cacheGet c key now).1 = false) :
    (status = 200 →
      (cacheMiddleware c true key ttlSec now status body).1.xCache = some ("MISS") ∧
      cacheLookup (cacheMiddleware c true key ttlSec now status body).2 key =
        some ⟨body, now, ttlSec * 1000⟩ ∧
      (cacheMiddleware c true key ttlSec now status body).1.handlerRan = true) ∧
    (status ≠ 200 →
      (cacheMiddleware c true key ttlSec now status body).1.xCache = none ∧
      (cacheMiddleware c true key ttlSec now status body).2 = (cacheGet c key now).2) := by
  constructor
  · intro h200
    subst h200
    have h1 : cacheMiddleware c true key ttlSec now 200 body =
        (⟨200, body, some ("MISS"), true⟩,
          cacheSet (cacheGet c key now).2 key body ttlSec now) := by
      simp [cacheMiddleware, hmiss]
    rw [h1]
    exact ⟨rfl, cacheLookup_set_self _ _ _ _ _, rfl⟩
  · intro hne
    have hb : (status == 200) = false := by simp [hne]
    have h1 : cacheMiddleware c true key ttlSec now status body =
        (⟨status, body, none, true⟩, (cacheGet c key now).2) := by
      simp [cacheMiddleware, hmiss, hb]
    rw [h1]
    exact ⟨rfl, rfl⟩

/-- Witness for C6 amended at concrete inputs: a 200 response is stored and
marked MISS; a 404 response on the same miss stores nothing and sets no
indicator. -/
theorem cacheMiddleware_stores_exactly_on_200_witness :
    ((cacheMiddleware [] true ("k2") 1800 0 200 (.jobj ("ok"))).1.xCache =
        some ("MISS") ∧
      cacheLookup (cacheMiddleware [] true ("k2") 1800 0 200 (.jobj ("ok"))).2 ("k2") =
        some ⟨.jobj ("ok"), 0, 1800 * 1000⟩ ∧
      (cacheMiddleware [] true ("k2") 1800 0 200 (.jobj ("ok"))).1.handlerRan = true) ∧
    ((cacheMiddleware [] true ("k2") 1800 0 404 (.jobj ("err"))).1.xCache = none ∧
      (cacheMiddleware [] true ("k2") 1800 0 404 (.jobj ("err"))).2 =
        (cacheGet [] ("k2") 0).2) :=
  ⟨(cacheMiddleware_stores_exactly_on_200 [] ("k2") 1800 0 200 (.jobj ("ok"))
      (by decide)).1 rfl,
   (cacheMiddleware_stores_exactly_on_200 [] ("k2") 1800 0 404 (.jobj ("err"))
      (by decide)).2 (by decide)⟩

/-! ## C7: identical GETs within the TTL hit the cache -/

/-- C7: starting from a cache with no entry for the key, a GET answered 200
with a truthy payload is marked MISS, and an identical GET within the entry's
TTL is marked HIT, returns the identical payload, and never executes the
downstream handler (whatever that handler would have produced). -/
theorem cacheMiddleware_identical_gets_within_ttl (c : Cache) (key : String)
    (ttlSec now1 now2 : Int) (body : JValue) (status2 : Nat) (body2 : JValue)
    (hfresh : cacheLookup c key = none) (htruthy : truthy body = true)
    (hwithin : now2 - now1 ≤ ttlSec * 1000) :
    (cacheMiddleware c true key ttlSec now1 200 body).1.xCache = some ("MISS") ∧
    (cacheMiddleware (cacheMiddleware c true key ttlSec now1 200 body).2 true key
        ttlSec now2 status2 body2).1.xCache = some ("HIT") ∧
    (cacheMiddleware c true key ttlSec now1 200 body).1.body = body ∧
    (cacheMiddleware (cacheMiddleware c true key ttlSec now1 200 body).2 true key
        ttlSec now2 status2 body2).1.body = body ∧
    (cacheMiddleware (cacheMiddleware c true key ttlSec now1 200 body).2 true key
        ttlSec now2 status2 body2).1.handlerRan = false := by
  have hget1 : cacheGet c key now1 = (.jnull, c) := by
    simp [cacheGet, hfresh]
  have hmiss1 : truthy (cacheGet c key now1).1 = false := by
    rw [hget1]
    rfl
  have h1 : cacheMiddleware c true key ttlSec now1 200 body =
      (⟨200, body, some ("MISS"), true⟩, cacheSet c key body ttlSec now1) := by
    simp [cacheMiddleware, hmiss1, hget1, truthy]
  have hlook2 : cacheLookup (cacheSet c key body ttlSec now1) key =
      some ⟨body, now1, ttlSec * 1000⟩ := cacheLookup_set_self c key body ttlSec now1
  have hget2 : cacheGet (cacheSet c key body ttlSec now1) key now2 =
      (body, cacheSet c key body ttlSec now1) := by
    simp only [cacheGet, hlook2]
    rw [if_neg (by omega)]
  have h2 : cacheMiddleware (cacheSet c key body ttlSec now1) true key ttlSec now2
      status2 body2 =
      (⟨200, body, some ("HIT"), false⟩, cacheSet c key body ttlSec now1) := by
    simp [cacheMiddleware, hget2, htruthy]
  rw [h1]
  simp [h2]

/-- Witness for C7 at concrete inputs: key served MISS at time 0 and HIT with
the same payload at time 1000, inside the 1800 s TTL. -/
theorem cacheMiddleware_identical_gets_within_ttl_witness :
    (cacheMiddleware [] true ("kp") 1800 0 200 (.jobj ("data"))).1.xCache =
      some ("MISS") ∧
    (cacheMiddleware (cacheMiddleware [] true ("kp") 1800 0 200 (.jobj ("data"))).2
        true ("kp") 1800 1000 200 (.jobj ("other"))).1.xCache = some ("HIT") ∧
    (cacheMiddleware [] true ("kp") 1800 0 200 (.jobj ("data"))).1.body =
      .jobj ("data") ∧
    (cacheMiddleware (cacheMiddleware [] true ("kp") 1800 0 200 (.jobj ("data"))).2
        true ("kp") 1800 1000 200 (.jobj ("other"))).1.body = .jobj ("data") ∧
    (cacheMiddleware (cacheMiddleware [] true ("kp") 1800 0 200 (.jobj ("data"))).2
        true ("kp") 1800 1000 200 (.jobj ("other"))).1.handlerRan = false :=
  cacheMiddleware_identical_gets_within_ttl [] ("kp") 1800 0 1000 (.jobj ("data"))
    200 (.jobj ("other")) (by decide) (by decide) (by decide)

/-! ## C9: invalidation purges exactly the tagged keys -/

/-- C9: when a wrapped mutating response is sent with a 2xx status, every
cache key containing one of the configured tag substrings has been deleted,
and every entry whose key contains none of them is unchanged, entry and
metadata alike. -/
theorem invalidateCache_purges_tagged_keys_only (patterns : List String) (c : Cache)
    (status : Nat) (k : String) (h2xx : 200 ≤ status ∧ status < 300) :
    ((∃ pat ∈ patterns, strIncl k pat = true) →
      cacheLookup (invalidateCacheOnSend patterns c status) k = none) ∧
    ((∀ pat ∈ patterns, strIncl k pat = false) →
      cacheLookup (invalidateCacheOnSend patterns c status) k = cacheLookup c k) := by
  unfold invalidateCacheOnSend
  rw [if_pos h2xx]
  by_cases hp : patterns.length > 0
  · rw [if_pos hp]
    exact ⟨fun h => cacheLookup_foldl_purge_none patterns c k h,
           fun h => cacheLookup_foldl_preserve_untagged patterns c k h⟩
  · rw [if_neg hp]
    constructor
    · intro h
      rcases h with ⟨pat, hmem, _⟩
      have hnil : patterns = [] := List.eq_nil_of_length_eq_zero (by omega)
      subst hnil
      simp at hmem
    · intro _
      rfl

/-- A products listing entry. -/
def demoProductsEntry : CacheEntry := ⟨.jobj ("plist"), 0, 1800000⟩

/-- A users listing entry. -/
def demoUsersEntry : CacheEntry := ⟨.jobj ("ulist"), 0, 1800000⟩

/-- Witness for C9 at a concrete cache: a successful mutation tagged products
purges the products key and leaves the users key with its exact entry. -/
theorem invalidateCache_purges_tagged_keys_only_witness :
    cacheLookup (invalidateCacheOnSend [("products")]
      [(("GET:api:products:list"), demoProductsEntry),
       (("GET:api:users:list"), demoUsersEntry)] 200) ("GET:api:products:list") =
      none ∧
    cacheLookup (invalidateCacheOnSend [("products")]
      [(("GET:api:products:list"), demoProductsEntry),
       (("GET:api:users:list"), demoUsersEntry)] 200) ("GET:api:users:list") =
      cacheLookup [(("GET:api:products:list"), demoProductsEntry),
       (("GET:api:users:list"), demoUsersEntry)] ("GET:api:users:list") :=
  ⟨(invalidateCache_purges_tagged_keys_only [("products")]
      [(("GET:api:products:list"), demoProductsEntry),
       (("GET:api:users:list"), demoUsersEntry)] 200 ("GET:api:products:list")
      (by omega)).1 ⟨("products"), by decide, by decide⟩,
   (invalidateCache_purges_tagged_keys_only [("products")]
      [(("GET:api:products:list"), demoProductsEntry),
       (("GET:api:users:list"), demoUsersEntry)] 200 ("GET:api:users:list")
      (by omega)).2 (by decide)⟩

end Ecom
